import Mathlib

/-!
Verification development for the I2S audio-sample transmission engine in
`src/Chapter02_AudioExample/digilent_arty.py` (modules `I2S_Tx` and
`Controller`).

The engine's fast domain (`i2s`, 12.288 MHz) runs a free-running 8-bit
divider counter whose bit 1 is the bit clock (`sclk`) and whose bit 7 is
the word-select clock (`lrck`).  All remaining logic (edge detection,
serializer, latch pulse, buffer controller, table read port) lives in the
control domain (`sys`, 100 MHz) and observes the fast-domain clock levels
by sampling them.  We embed the control-domain logic as a step function on
an explicit state record, driven by the sampled clock-level traces, and
the fast domain as a counter advanced by an arbitrary schedule (at most
one increment per control tick, which holds because the control clock is
faster than the fast clock).
-/

set_option maxRecDepth 100000
set_option maxHeartbeats 4000000

namespace I2SAudio

/-- One shift of a 32-bit shift register as written in the source
(`l_data[1:32].eq(l_data[0:31])`): bits 1..31 receive bits 0..30, bit 31
is discarded, and bit 0 — which the source never assigns — keeps its
previous value (registers hold when unassigned inside `sync`). -/
def shiftUp32 (x : Nat) : Nat := x * 2 % 2 ^ 32 + x % 2

/-- Control-domain (`sys`) registers of `I2S_Tx` and `Controller`:
edge-detection delay registers and pulse flags, the serializer's shift
registers and output bit, the latch pulse, the buffer controller's
address, the memory read port's registered output `dat_r`, and the
controller's two output registers feeding the serializer's load inputs. -/
structure SysState where
  sclk_delay : Bool
  lrck_delay : Bool
  sclk_fe : Bool
  lrck_re : Bool
  lrck_fe : Bool
  i2s_tx : Bool
  l_data : Nat
  r_data : Nat
  latch_data : Bool
  addr : Nat
  dat_r : Nat
  ctrl_l : Nat
  ctrl_r : Nat
deriving DecidableEq, Repr

/-- Reset state: every register of the design resets to 0. -/
def initState : SysState :=
  ⟨false, false, false, false, false, false, 0, 0, false, 0, 0, 0, 0⟩

/-- One control-domain tick of the whole `sys`-clocked logic.  `mem` is the
sample table (`Memory(32, 48, init=samples_int)`; its generator is external
data, so it is a parameter); `sclk_in`/`lrck_in` are the live fast-domain
clock levels (`i2s_sclk`, `i2s_lrck`) as seen at this tick.  Later
assignments in a migen `sync` list override earlier ones for the same
signal, which yields the if-chains below (load overrides shift, and the
loads force `i2s_tx` to 0). -/
def sysStep (mem : Nat → Nat) (s : SysState) (sclk_in lrck_in : Bool) :
    SysState where
  sclk_delay := sclk_in
  lrck_delay := lrck_in
  sclk_fe := !sclk_in && s.sclk_delay
  lrck_re := lrck_in && !s.lrck_delay
  lrck_fe := !lrck_in && s.lrck_delay
  i2s_tx :=
    if s.lrck_fe && s.sclk_fe then false
    else if s.lrck_re && s.sclk_fe then false
    else if s.sclk_fe && lrck_in then s.r_data.testBit 31
    else if s.sclk_fe && !lrck_in then s.l_data.testBit 31
    else s.i2s_tx
  l_data :=
    if s.lrck_fe && s.sclk_fe then s.ctrl_l
    else if s.sclk_fe && !lrck_in then shiftUp32 s.l_data
    else s.l_data
  r_data :=
    if s.lrck_re && s.sclk_fe then s.ctrl_r
    else if s.sclk_fe && lrck_in then shiftUp32 s.r_data
    else s.r_data
  latch_data := if s.lrck_fe then true else s.latch_data
  addr :=
    if s.latch_data then (if s.addr = 47 then 0 else (s.addr + 1) % 64)
    else s.addr
  dat_r := if s.latch_data then mem s.addr else s.dat_r
  ctrl_l := s.dat_r
  ctrl_r := s.dat_r

/-- Control-domain run from reset, driven by the sampled clock levels. -/
def sysRun (mem : Nat → Nat) (sclk_in lrck_in : Nat → Bool) : Nat → SysState
  | 0 => initState
  | t + 1 => sysStep mem (sysRun mem sclk_in lrck_in t) (sclk_in t) (lrck_in t)

/-- Fast-domain divider counter `i2s_clk_div` (8 bits, reset 0,
incremented every `i2s` tick).  `adv t = true` means one fast-domain clock
edge falls between control ticks `t` and `t+1`; since the control clock is
the faster one, at most one increment per control tick occurs. -/
def clkDivRun (adv : Nat → Bool) : Nat → Nat
  | 0 => 0
  | t + 1 => if adv t then (clkDivRun adv t + 1) % 256 else clkDivRun adv t

/-- Bit clock level `i2s_sclk = i2s_clk_div[1]` as sampled at control tick `t`. -/
def sclkSig (adv : Nat → Bool) (t : Nat) : Bool := (clkDivRun adv t).testBit 1

/-- Word-select level `i2s_lrck = i2s_clk_div[7]` as sampled at control tick `t`. -/
def lrckSig (adv : Nat → Bool) (t : Nat) : Bool := (clkDivRun adv t).testBit 7

/-- The composed two-domain system: the control-domain logic driven by the
divider counter's bit 1 and bit 7 under advance schedule `adv`. -/
def fullRun (mem : Nat → Nat) (adv : Nat → Bool) : Nat → SysState :=
  sysRun mem (sclkSig adv) (lrckSig adv)

/-- A concrete stand-in sample table with pairwise distinct entries at the
48 used addresses (the real table data — one period of a sine — is
external data; every claim here is table-generic). -/
def memEx (i : Nat) : Nat := 100 + i

/-- Advance schedule with one counter increment per control tick (the
boundary case of the sampling model; it keeps concrete runs short). -/
def advAll : Nat → Bool := fun _ => true

/-- Bit-clock level of the `advAll` run in closed form: the counter is
then `t % 256`. -/
def sclkK1 (t : Nat) : Bool := (t % 256).testBit 1

/-- Word-select level of the `advAll` run in closed form. -/
def lrckK1 (t : Nat) : Bool := (t % 256).testBit 7

/-- The concrete run used for counterexamples: table `memEx`, one counter
increment per control tick. -/
def runK1 : Nat → SysState := sysRun memEx sclkK1 lrckK1

/-- Number of ticks `u` in the window `[a, a+n)` at which `f` holds. -/
def countT (f : Nat → Bool) (a : Nat) : Nat → Nat
  | 0 => 0
  | n + 1 => countT f a n + (if f (a + n) then 1 else 0)

/-- The serializer drives a bit of the left word onto the data line at
tick `t`: a bit-clock falling-edge pulse with word select low, not
overridden by either load assignment (which come later in the `sync` list
and force the line to 0). -/
def emitsLeft (mem : Nat → Nat) (sclk_in lrck_in : Nat → Bool) (t : Nat) :
    Bool :=
  let s := sysRun mem sclk_in lrck_in t
  (s.sclk_fe && !lrck_in t) && !(s.lrck_re && s.sclk_fe) &&
    !(s.lrck_fe && s.sclk_fe)

/-- Same for the right word (word select high). -/
def emitsRight (mem : Nat → Nat) (sclk_in lrck_in : Nat → Bool) (t : Nat) :
    Bool :=
  let s := sysRun mem sclk_in lrck_in t
  (s.sclk_fe && lrck_in t) && !(s.lrck_re && s.sclk_fe) &&
    !(s.lrck_fe && s.sclk_fe)

/-- Qualifying bit-clock edge for the left channel at tick `t`: a
bit-clock falling-edge pulse while word select is low. -/
def qualLeft (mem : Nat → Nat) (sclk_in lrck_in : Nat → Bool) (t : Nat) :
    Bool :=
  (sysRun mem sclk_in lrck_in t).sclk_fe && !lrck_in t

/-- Qualifying bit-clock edge for the right channel at tick `t`. -/
def qualRight (mem : Nat → Nat) (sclk_in lrck_in : Nat → Bool) (t : Nat) :
    Bool :=
  (sysRun mem sclk_in lrck_in t).sclk_fe && lrck_in t

/-- Master clock frequency: the PLL output driving the `i2s` domain,
`create_clkout(self.cd_i2s, freq=12.288e6)`. -/
def masterClockFreq : Nat := 12288000

/-- Master-clock ticks per bit-clock period: `sclk` is bit 1 of the
divider, so its period is `2 ^ 2 = 4` master ticks. -/
def sclkDivFactor : Nat := 4

/-- Master-clock ticks per word-select period: `lrck` is bit 7 of the
divider, so its period is `2 ^ 8 = 256` master ticks. -/
def lrckDivFactor : Nat := 256

/-- Sample rate implied by the fixed taps: one frame per `lrck` period. -/
def sampleRate : Nat := masterClockFreq / lrckDivFactor

/-- Bits per channel implied by the fixed taps: bit-clock periods per
word-select half-period. -/
def bitsPerChannel : Nat := lrckDivFactor / sclkDivFactor / 2

/-- Configuration-error kinds named by the specification. -/
inductive ConfigError
  | invalidRatio
  | invalidTableLength
  | widthMismatch
deriving DecidableEq, Repr

/-- Configuration-time validation outcome of `I2S_Tx.__init__`
(src lines 90–127): the constructor derives the clocks from fixed counter
bit taps and contains no check and no raise statement of any kind, so the
outcome is unconditionally "no error". -/
def i2sConfigCheck : Option ConfigError := none

/-- Closed form of the edge-pulse registers two ticks in: each pulse flag
at tick `t+2` compares the levels sampled at ticks `t+1` and `t`. -/
theorem flags_step (mem : Nat → Nat) (si li : Nat → Bool) (t : Nat) :
    (sysRun mem si li (t + 2)).sclk_fe = (!si (t + 1) && si t)
    ∧ (sysRun mem si li (t + 2)).lrck_re = (li (t + 1) && !li t)
    ∧ (sysRun mem si li (t + 2)).lrck_fe = (!li (t + 1) && li t) :=
  ⟨rfl, rfl, rfl⟩

/-- The controller address register stays below the table length 48 in
every run from reset. -/
theorem addr_lt_48 (mem : Nat → Nat) (si li : Nat → Bool) :
    ∀ t, (sysRun mem si li t).addr < 48 := by
  intro t
  induction t with
  | zero => exact Nat.zero_lt_succ 47
  | succ t ih =>
    simp only [sysRun, sysStep]
    by_cases h : (sysRun mem si li t).latch_data = true
    · simp only [h, if_true]
      by_cases h47 : (sysRun mem si li t).addr = 47
      · simp [h47]
      · have hlt : (sysRun mem si li t).addr + 1 < 64 := by omega
        simp only [h47, if_false, Nat.mod_eq_of_lt hlt]
        omega
    · simp only [Bool.not_eq_true] at h
      simp only [h, Bool.false_eq_true, if_false]
      exact ih

/-- The divider counter stays below 256. -/
theorem clkDiv_lt (adv : Nat → Bool) : ∀ t, clkDivRun adv t < 256 := by
  intro t
  induction t with
  | zero => exact Nat.zero_lt_succ 255
  | succ t ih =>
    simp only [clkDivRun]
    by_cases h : adv t = true
    · simp only [h, if_true]
      exact Nat.mod_lt _ (by omega)
    · simp only [Bool.not_eq_true] at h
      simp only [h, Bool.false_eq_true, if_false]
      exact ih

/-- Arithmetic core of the tap alignment: whenever an increment of the
8-bit divider flips bit 7, bit 1 falls at that same increment. -/
theorem bit7_flip_bit1 :
    ∀ c, c < 256 → (((c + 1) % 256).testBit 7 ≠ c.testBit 7) →
      (c.testBit 1 = true ∧ ((c + 1) % 256).testBit 1 = false) := by
  decide

/-- `countT` is preserved by a pointwise-equal reindexing of the window. -/
theorem countT_congr (f g : Nat → Bool) (a b : Nat) :
    ∀ n, (∀ i, i < n → f (a + i) = g (b + i)) → countT f a n = countT g b n := by
  intro n
  induction n with
  | zero => intro _; rfl
  | succ n ih =>
    intro h
    simp only [countT]
    rw [ih (fun i hi => h i (by omega)), h n (by omega)]

/-- Purely arithmetic form of `emitsLeft` on the `runK1` trace, for ticks
of the form `t + 2`. -/
def pEmitL (u : Nat) : Bool :=
  ((!sclkK1 (u - 1) && sclkK1 (u - 2)) && !lrckK1 u) &&
    !((lrckK1 (u - 1) && !lrckK1 (u - 2)) && (!sclkK1 (u - 1) && sclkK1 (u - 2))) &&
    !((!lrckK1 (u - 1) && lrckK1 (u - 2)) && (!sclkK1 (u - 1) && sclkK1 (u - 2)))

/-- Purely arithmetic form of `qualLeft` on the `runK1` trace. -/
def pQualL (u : Nat) : Bool :=
  (!sclkK1 (u - 1) && sclkK1 (u - 2)) && !lrckK1 u

/-- Purely arithmetic form of `emitsRight` on the `runK1` trace. -/
def pEmitR (u : Nat) : Bool :=
  ((!sclkK1 (u - 1) && sclkK1 (u - 2)) && lrckK1 u) &&
    !((lrckK1 (u - 1) && !lrckK1 (u - 2)) && (!sclkK1 (u - 1) && sclkK1 (u - 2))) &&
    !((!lrckK1 (u - 1) && lrckK1 (u - 2)) && (!sclkK1 (u - 1) && sclkK1 (u - 2)))

/-- Purely arithmetic form of `qualRight` on the `runK1` trace. -/
def pQualR (u : Nat) : Bool :=
  (!sclkK1 (u - 1) && sclkK1 (u - 2)) && lrckK1 u

theorem pEmitL_eq (t : Nat) :
    emitsLeft memEx sclkK1 lrckK1 (t + 2) = pEmitL (t + 2) := by
  obtain ⟨h1, h2, h3⟩ := flags_step memEx sclkK1 lrckK1 t
  simp only [emitsLeft, pEmitL, show t + 2 - 1 = t + 1 from rfl,
    show t + 2 - 2 = t from rfl, h1, h2, h3]

theorem pQualL_eq (t : Nat) :
    qualLeft memEx sclkK1 lrckK1 (t + 2) = pQualL (t + 2) := by
  obtain ⟨h1, _, _⟩ := flags_step memEx sclkK1 lrckK1 t
  simp only [qualLeft, pQualL, show t + 2 - 1 = t + 1 from rfl,
    show t + 2 - 2 = t from rfl, h1]

theorem pEmitR_eq (t : Nat) :
    emitsRight memEx sclkK1 lrckK1 (t + 2) = pEmitR (t + 2) := by
  obtain ⟨h1, h2, h3⟩ := flags_step memEx sclkK1 lrckK1 t
  simp only [emitsRight, pEmitR, show t + 2 - 1 = t + 1 from rfl,
    show t + 2 - 2 = t from rfl, h1, h2, h3]

theorem pQualR_eq (t : Nat) :
    qualRight memEx sclkK1 lrckK1 (t + 2) = pQualR (t + 2) := by
  obtain ⟨h1, _, _⟩ := flags_step memEx sclkK1 lrckK1 t
  simp only [qualRight, pQualR, show t + 2 - 1 = t + 1 from rfl,
    show t + 2 - 2 = t from rfl, h1]

theorem pEmitL_period (u : Nat) (h : 2 ≤ u) :
    pEmitL (u + 256) = pEmitL u := by
  have e1 : u + 256 - 1 = (u - 1) + 256 := by omega
  have e2 : u + 256 - 2 = (u - 2) + 256 := by omega
  simp only [pEmitL, e1, e2, sclkK1, lrckK1, Nat.add_mod_right]

theorem pQualL_period (u : Nat) (h : 2 ≤ u) :
    pQualL (u + 256) = pQualL u := by
  have e1 : u + 256 - 1 = (u - 1) + 256 := by omega
  have e2 : u + 256 - 2 = (u - 2) + 256 := by omega
  simp only [pQualL, e1, e2, sclkK1, lrckK1, Nat.add_mod_right]

theorem pEmitR_period (u : Nat) (h : 2 ≤ u) :
    pEmitR (u + 256) = pEmitR u := by
  have e1 : u + 256 - 1 = (u - 1) + 256 := by omega
  have e2 : u + 256 - 2 = (u - 2) + 256 := by omega
  simp only [pEmitR, e1, e2, sclkK1, lrckK1, Nat.add_mod_right]

theorem pQualR_period (u : Nat) (h : 2 ≤ u) :
    pQualR (u + 256) = pQualR u := by
  have e1 : u + 256 - 1 = (u - 1) + 256 := by omega
  have e2 : u + 256 - 2 = (u - 2) + 256 := by omega
  simp only [pQualR, e1, e2, sclkK1, lrckK1, Nat.add_mod_right]

/-- A run-based event count over a window starting at `a ≥ 2` equals the
count of its arithmetic form. -/
theorem countT_to_p (f : Nat → Bool) (p : Nat → Bool)
    (hfp : ∀ t, f (t + 2) = p (t + 2)) (a : Nat) (h : 2 ≤ a) (n : Nat) :
    countT f a n = countT p a n := by
  refine countT_congr f p a a n (fun i _ => ?_)
  have e : a + i = (a + i - 2) + 2 := by omega
  rw [e, hfp]

/-- Shifting a window of a 256-periodic predicate by one period keeps the
count. -/
theorem countT_period (p : Nat → Bool) (hp : ∀ u, 2 ≤ u → p (u + 256) = p u)
    (a : Nat) (h : 2 ≤ a) (n : Nat) :
    countT p (a + 256) n = countT p a n := by
  refine countT_congr p p (a + 256) a n (fun i _ => ?_)
  have e : a + 256 + i = (a + i) + 256 := by omega
  rw [e, hp (a + i) (by omega)]

theorem countT_p_windows :
    ∀ n, 1 ≤ n →
      countT pEmitL (256 * n) 128 = 31 ∧ countT pQualL (256 * n) 128 = 32 ∧
      countT pEmitR (256 * n + 128) 128 = 31 ∧
      countT pQualR (256 * n + 128) 128 = 32 := by
  intro n hn
  induction n with
  | zero => omega
  | succ n ih =>
    by_cases h0 : n = 0
    · subst h0
      refine ⟨?_, ?_, ?_, ?_⟩ <;> decide
    · have hn' : 1 ≤ n := by omega
      obtain ⟨i1, i2, i3, i4⟩ := ih hn'
      have e1 : 256 * (n + 1) = 256 * n + 256 := by ring
      have e2 : 256 * (n + 1) + 128 = (256 * n + 128) + 256 := by ring
      refine ⟨?_, ?_, ?_, ?_⟩
      · rw [e1, countT_period pEmitL pEmitL_period (256 * n) (by omega)]
        exact i1
      · rw [e1, countT_period pQualL pQualL_period (256 * n) (by omega)]
        exact i2
      · rw [e2, countT_period pEmitR pEmitR_period (256 * n + 128) (by omega)]
        exact i3
      · rw [e2, countT_period pQualR pQualR_period (256 * n + 128) (by omega)]
        exact i4

/-- Event counts per word-select half-period of the `runK1` trace: every
low half-window `[256n, 256n+128)` (`n ≥ 1`) holds exactly 32 qualifying
bit-clock falling edges and exactly 31 left-bit emissions, and every high
half-window `[256n+128, 256n+256)` holds 32 qualifying edges and 31
right-bit emissions. -/
theorem window_counts :
    ∀ n, 1 ≤ n →
      countT (emitsLeft memEx sclkK1 lrckK1) (256 * n) 128 = 31 ∧
      countT (qualLeft memEx sclkK1 lrckK1) (256 * n) 128 = 32 ∧
      countT (emitsRight memEx sclkK1 lrckK1) (256 * n + 128) 128 = 31 ∧
      countT (qualRight memEx sclkK1 lrckK1) (256 * n + 128) 128 = 32 := by
  intro n hn
  obtain ⟨p1, p2, p3, p4⟩ := countT_p_windows n hn
  have ha : 2 ≤ 256 * n := by omega
  have hb : 2 ≤ 256 * n + 128 := by omega
  refine ⟨?_, ?_, ?_, ?_⟩
  · rw [countT_to_p _ pEmitL pEmitL_eq _ ha]; exact p1
  · rw [countT_to_p _ pQualL pQualL_eq _ ha]; exact p2
  · rw [countT_to_p _ pEmitR pEmitR_eq _ hb]; exact p3
  · rw [countT_to_p _ pQualR pQualR_eq _ hb]; exact p4

/-- Claim C1 (refuted — code bug): the source sets `latch_data` on a
word-select falling-edge pulse but never clears it (the `If` at lines
179–183 has no `Else`), so after the first falling edge the "data
consumed" signal stays high forever instead of pulsing for one tick.  In
the concrete composed run `runK1` the first falling-edge pulse is at tick
257; `latch_data` is then high at ticks 258, 259 and still at 300. -/
theorem c1_latch_data_sticky :
    (runK1 258).latch_data = true ∧ (runK1 259).latch_data = true ∧
      (runK1 300).latch_data = true := by
  decide

/-- Claim C2 (refuted — code bug): because `latch_data` never deasserts,
the controller address free-runs at the control-clock rate, and the frames
loaded into the serializer do not walk the sample table in order.  In
`runK1` (table entry `i` holds `100 + i`) the first loaded left word is 0
(the read port's reset value, not entry 0) and the second loaded left word
is table entry 13, not entry 1 — so no reconstruction of the serial line
can reproduce the table frame-for-frame even once, let alone for 3
cycles. -/
theorem c2_frames_skip_entries :
    (runK1 258).l_data = 0 ∧ (runK1 514).l_data = memEx 13 ∧
      memEx 13 ≠ memEx 0 ∧ memEx 13 ≠ memEx 1 := by
  decide

/-- Claim C3 (confirmed): each edge-pulse flag at tick `t+2` is true
exactly when the corresponding level transition happened between the
samples at ticks `t` and `t+1` — so every transition yields the pulse at
exactly one control tick, and the pulse never fires without a transition.
In the composed run from reset the counter starts at 0, both levels start
low, and no pulse fires on ticks 0 and 1 before any transition. -/
theorem c3_edge_pulse_exactly_once (mem : Nat → Nat) (si li : Nat → Bool)
    (adv : Nat → Bool) (t : Nat) :
    ((sysRun mem si li (t + 2)).sclk_fe = true ↔
      (si t = true ∧ si (t + 1) = false))
    ∧ ((sysRun mem si li (t + 2)).lrck_re = true ↔
      (li t = false ∧ li (t + 1) = true))
    ∧ ((sysRun mem si li (t + 2)).lrck_fe = true ↔
      (li t = true ∧ li (t + 1) = false))
    ∧ (fullRun mem adv 0).sclk_fe = false
    ∧ (fullRun mem adv 1).sclk_fe = false
    ∧ (fullRun mem adv 1).lrck_re = false
    ∧ (fullRun mem adv 1).lrck_fe = false := by
  obtain ⟨h1, h2, h3⟩ := flags_step mem si li t
  refine ⟨?_, ?_, ?_, rfl, ?_, ?_, ?_⟩
  · rw [h1]; cases si t <;> cases si (t + 1) <;> simp
  · rw [h2]; cases li t <;> cases li (t + 1) <;> simp
  · rw [h3]; cases li t <;> cases li (t + 1) <;> simp
  · simp [fullRun, sysRun, sysStep, initState]
  · simp [fullRun, sysRun, sysStep, initState, lrckSig, clkDivRun,
      Nat.zero_testBit]
  · simp [fullRun, sysRun, sysStep, initState]

/-- Claim C4 (confirmed): at every control tick the visible edge-pulse
flags equal the comparison of the current registered level sample against
the sample registered one tick earlier — the flag registers themselves
provide the full tick of delay, so the flag value observed at any tick is
a function of previously registered levels only, never of the live
fast-domain level at that tick. -/
theorem c4_flags_from_registered_samples (mem : Nat → Nat)
    (si li : Nat → Bool) (t : Nat) :
    (sysRun mem si li (t + 1)).sclk_fe =
      (!(sysRun mem si li (t + 1)).sclk_delay &&
        (sysRun mem si li t).sclk_delay)
    ∧ (sysRun mem si li (t + 1)).lrck_re =
      ((sysRun mem si li (t + 1)).lrck_delay &&
        !(sysRun mem si li t).lrck_delay)
    ∧ (sysRun mem si li (t + 1)).lrck_fe =
      (!(sysRun mem si li (t + 1)).lrck_delay &&
        (sysRun mem si li t).lrck_delay) :=
  ⟨rfl, rfl, rfl⟩

/-- Claim C5 (refuted — code bug): with `latch_data` stuck high the
controller address advances on every consecutive control tick instead of
once per word-select period.  In `runK1` the address becomes 1 at tick 259
and 2 at tick 260 (both inside the very first word-select period after the
first frame boundary), and it has already wrapped back to 0 by tick 306,
long before 48 word-select periods have elapsed. -/
theorem c5_addr_races :
    (runK1 258).addr = 0 ∧ (runK1 259).addr = 1 ∧ (runK1 260).addr = 2 ∧
      (runK1 306).addr = 0 := by
  decide

/-- Claim C6 (confirmed): in every run from reset the controller address
stays in `[0, 48)`, and each step either holds the address, increments it
by one from a value below 47, or wraps it from 47 to 0. -/
theorem c6_addr_invariant (mem : Nat → Nat) (si li : Nat → Bool) (t : Nat) :
    (sysRun mem si li t).addr < 48
    ∧ ((sysRun mem si li (t + 1)).addr = (sysRun mem si li t).addr
      ∨ ((sysRun mem si li t).addr < 47 ∧
        (sysRun mem si li (t + 1)).addr = (sysRun mem si li t).addr + 1)
      ∨ ((sysRun mem si li t).addr = 47 ∧
        (sysRun mem si li (t + 1)).addr = 0)) := by
  have hlt := addr_lt_48 mem si li t
  refine ⟨hlt, ?_⟩
  by_cases h : (sysRun mem si li t).latch_data = true
  · by_cases h47 : (sysRun mem si li t).addr = 47
    · refine Or.inr (Or.inr ⟨h47, ?_⟩)
      simp [sysRun, sysStep, h, h47]
    · refine Or.inr (Or.inl ⟨by omega, ?_⟩)
      have hm : (sysRun mem si li t).addr + 1 < 64 := by omega
      simp [sysRun, sysStep, h, h47, Nat.mod_eq_of_lt hm]
  · simp only [Bool.not_eq_true] at h
    left
    simp [sysRun, sysStep, h]

/-- Claim C7 (refuted): `I2S_Tx.__init__` performs no configuration
validation at all — it can report no error — and the code's own fixed
configuration (12.288 MHz master clock, 32 bits per channel, 48 kHz sample
rate from taps at bits 1 and 7) does not even satisfy the claimed relation
`masterClockFreq = 2 × bitsPerChannel × 2 × sampleRate`, yet the design
elaborates and runs. -/
theorem c7_no_ratio_validation :
    masterClockFreq ≠ 2 * bitsPerChannel * 2 * sampleRate ∧
      i2sConfigCheck = none := by
  decide

/-- Claim C7, amended: no configuration check exists, and the fixed
configuration satisfies `masterClockFreq = 4 × bitsPerChannel × 2 ×
sampleRate` (the master clock is four bit-clock periods per bit, not
two). -/
theorem c7_actual_ratio :
    masterClockFreq = 4 * bitsPerChannel * 2 * sampleRate ∧
      i2sConfigCheck = none := by
  decide

/-- Claim C8 (refuted): in the steady-state word-select low half-period
`[256, 384)` of `runK1` there are exactly 32 qualifying bit-clock
falling-edge pulses with word select low, but the serializer drives a bit
of the left word on only 31 of them — the qualifying edge that coincides
with the word-select transition executes the frame load and forces the
line to 0 instead — so it does not emit `bitsPerChannel = 32` bits per
half-period. -/
theorem c8_only_31_bits_emitted :
    countT (emitsLeft memEx sclkK1 lrckK1) 256 128 = 31 ∧
      countT (qualLeft memEx sclkK1 lrckK1) 256 128 = 32 ∧
      (31 : Nat) ≠ bitsPerChannel := by
  obtain ⟨h1, h2, _, _⟩ := window_counts 1 (Nat.le_refl 1)
  exact ⟨h1, h2, by decide⟩

/-- Claim C8, amended: every steady-state word-select half-period of the
composed run (low halves `[256n, 256n+128)` and high halves
`[256n+128, 256n+256)`, `n ≥ 1`) contains exactly 32 qualifying bit-clock
falling edges for its channel, and the serializer emits a bit of the
current word on exactly 31 of them; the remaining edge — the one at the
word-select boundary — loads the next word and forces the data line to 0,
so bit 0 of each word is never emitted. -/
theorem c8_amended_31_of_32_edges (n : Nat) (h : 1 ≤ n) :
    countT (emitsLeft memEx sclkK1 lrckK1) (256 * n) 128 = 31 ∧
      countT (qualLeft memEx sclkK1 lrckK1) (256 * n) 128 = 32 ∧
      countT (emitsRight memEx sclkK1 lrckK1) (256 * n + 128) 128 = 31 ∧
      countT (qualRight memEx sclkK1 lrckK1) (256 * n + 128) 128 = 32 :=
  window_counts n h

/-- Witness for `c8_amended_31_of_32_edges` at `n = 1`. -/
theorem c8_amended_31_of_32_edges_witness :
    countT (emitsLeft memEx sclkK1 lrckK1) (256 * 1) 128 = 31 ∧
      countT (qualLeft memEx sclkK1 lrckK1) (256 * 1) 128 = 32 ∧
      countT (emitsRight memEx sclkK1 lrckK1) (256 * 1 + 128) 128 = 31 ∧
      countT (qualRight memEx sclkK1 lrckK1) (256 * 1 + 128) 128 = 32 :=
  c8_amended_31_of_32_edges 1 (Nat.le_refl 1)

/-- Claim C9 (refuted): in `runK1` the frame whose low half starts at the
counter wrap observed at tick 513 loads its left word at tick 514 (table
entry 13, value 113) and its right word at tick 642 (table entry 45, value
145) — the two channels of one frame are loaded half a period apart from a
read register that has moved on, so they are not equal. -/
theorem c9_frame_channels_differ :
    (runK1 514).l_data ≠ (runK1 642).r_data := by
  decide

/-- Claim C9, amended: at every control tick the controller does drive the
serializer's left and right next-load inputs from the single memory read
register `dat_r`, so the two load inputs are always equal to each other —
but the left and right words of one frame are loaded at different ticks,
so frames need not have equal channels (see
`c9_frame_channels_differ`). -/
theorem c9_same_load_source (mem : Nat → Nat) (si li : Nat → Bool)
    (t : Nat) :
    (sysRun mem si li t).ctrl_l = (sysRun mem si li t).ctrl_r := by
  cases t <;> rfl

/-- Claim C10 (confirmed): in the composed two-domain system, whenever a
word-select edge pulse (rising or falling) is asserted at a control tick,
the bit-clock falling-edge pulse is asserted at that same tick — because
word select is bit 7 and the bit clock is bit 1 of one free-running
counter, every bit-7 flip coincides with a bit-1 falling transition.
Hence the serializer's load conditions (`lrck_re & sclk_fe`,
`lrck_fe & sclk_fe`) fire on every word-select transition. -/
theorem c10_ws_edge_implies_sclk_fall (mem : Nat → Nat) (adv : Nat → Bool)
    (t : Nat)
    (h : (fullRun mem adv t).lrck_re = true ∨
      (fullRun mem adv t).lrck_fe = true) :
    (fullRun mem adv t).sclk_fe = true := by
  match t with
  | 0 =>
    exfalso
    simp [fullRun, sysRun, initState] at h
  | 1 =>
    exfalso
    have hre : (fullRun mem adv 1).lrck_re = (lrckSig adv 0 && !initState.lrck_delay) := rfl
    have hfe : (fullRun mem adv 1).lrck_fe = (!lrckSig adv 0 && initState.lrck_delay) := rfl
    rw [hre, hfe] at h
    simp [initState, lrckSig, clkDivRun] at h
  | u + 2 =>
    obtain ⟨h1, h2, h3⟩ :=
      flags_step mem (sclkSig adv) (lrckSig adv) u
    have hrw : fullRun mem adv = sysRun mem (sclkSig adv) (lrckSig adv) := rfl
    rw [hrw] at h ⊢
    rw [h1]
    rw [h2, h3] at h
    by_cases ha : adv u = true
    · have hc : clkDivRun adv (u + 1) = (clkDivRun adv u + 1) % 256 := by
        simp [clkDivRun, ha]
      have hflip : ((clkDivRun adv u + 1) % 256).testBit 7 ≠
          (clkDivRun adv u).testBit 7 := by
        rcases h with h | h
        · simp only [lrckSig, hc, Bool.and_eq_true, Bool.not_eq_true'] at h
          rw [h.1, h.2]
          simp
        · simp only [lrckSig, hc, Bool.and_eq_true, Bool.not_eq_true'] at h
          rw [h.1, h.2]
          simp
      obtain ⟨hb1, hb2⟩ :=
        bit7_flip_bit1 (clkDivRun adv u) (clkDiv_lt adv u) hflip
      simp only [sclkSig, hc, hb1, hb2]
      rfl
    · simp only [Bool.not_eq_true] at ha
      have hc : clkDivRun adv (u + 1) = clkDivRun adv u := by
        simp [clkDivRun, ha]
      exfalso
      simp only [lrckSig, hc] at h
      rcases h with h | h <;>
        cases hb : (clkDivRun adv u).testBit 7 <;> simp [hb] at h

/-- Witness for `c10_ws_edge_implies_sclk_fall`: in the `advAll` composed
run the first word-select rising edge is observed at tick 129, and the
bit-clock falling-edge pulse fires there too. -/
theorem c10_ws_edge_implies_sclk_fall_witness :
    (fullRun memEx advAll 129).sclk_fe = true :=
  c10_ws_edge_implies_sclk_fall memEx advAll 129 (Or.inl (by decide))

end I2SAudio
